import Mathlib

/-!
Verification model of the net-worth tracker (src/app.js).

The JavaScript source keeps three module-level arrays (assets, liabilities,
snapshots); here they form an explicit Store record threaded through every
operation.  JavaScript numbers are modelled as exact rationals; float
rounding, the Infinity literal and NaN as a stored value are outside the
model.  A division whose result is a JS non-finite value is modelled by
Option.none.  Fresh ids (generateId in the source) are supplied by an id
generator parameter, and timestamps by explicit string arguments, since both
read ambient clocks or PRNG state.  DOM access, localStorage and dialogs are
presentation glue outside the modelled core.
-/

namespace NetWorth

/-- JS whitespace test for the String.prototype.trim calls in app.js,
restricted to the ASCII whitespace characters that can occur here. -/
def isJsWS (c : Char) : Bool :=
  c = ' ' || c = '\t' || c = '\n' || c = '\r' || c = '\x0b' || c = '\x0c'

/-- Model of the JS String.prototype.trim: drop leading and trailing
whitespace. -/
def trimChars (cs : List Char) : List Char :=
  ((cs.dropWhile isJsWS).reverse.dropWhile isJsWS).reverse

/-- String-level wrapper of trimChars. -/
def jsTrim (s : String) : String :=
  String.mk (trimChars s.data)

/-- Model of the JS String.prototype.split with a single-character
separator, as in csvText.split(Char.ofNat 10) at app.js:772. -/
def splitOnChar (c : Char) : List Char → List (List Char)
  | [] => [[]]
  | x :: xs =>
    if x = c then
      [] :: splitOnChar c xs
    else
      match splitOnChar c xs with
      | [] => [[x]]
      | g :: gs => (x :: g) :: gs

/-- Numeric value of a list of decimal digit characters. -/
def digitsToNat (ds : List Char) : Nat :=
  ds.foldl (fun n c => 10 * n + (c.toNat - 48)) 0

/-- Model of the JS parseFloat used throughout app.js: skip leading
whitespace, an optional sign, then the longest decimal-literal prefix
(integer part, optional fraction, optional exponent), ignoring trailing
junk.  Returns none when no numeric prefix exists, which is the case JS
reports as NaN.  The Infinity literal and float overflow are outside this
rational-number model. -/
def jsParseFloat (s : String) : Option ℚ :=
  let cs := s.data.dropWhile isJsWS
  let sgn : ℚ := match cs with
    | '-' :: _ => -1
    | _ => 1
  let cs := match cs with
    | '-' :: rest => rest
    | '+' :: rest => rest
    | _ => cs
  let ipart := cs.takeWhile Char.isDigit
  let cs1 := cs.dropWhile Char.isDigit
  let fpart := match cs1 with
    | '.' :: rest => rest.takeWhile Char.isDigit
    | _ => []
  let cs2 := match cs1 with
    | '.' :: rest => rest.dropWhile Char.isDigit
    | _ => cs1
  if ipart = [] ∧ fpart = [] then none
  else
    let mantissa : ℚ := (digitsToNat ipart : ℚ) + (digitsToNat fpart : ℚ) / ((10 : ℚ) ^ fpart.length)
    let expo : ℤ := match cs2 with
      | e :: rest =>
        if e = 'e' ∨ e = 'E' then
          let esgn : ℤ := match rest with
            | '-' :: _ => -1
            | _ => 1
          let rest2 := match rest with
            | '-' :: r => r
            | '+' :: r => r
            | _ => rest
          let edigits := rest2.takeWhile Char.isDigit
          if edigits = [] then 0 else esgn * (digitsToNat edigits : ℤ)
        else 0
      | [] => 0
    some (sgn * mantissa * (10 : ℚ) ^ expo)

/-- Count how many times p divides n, returning the count and the
remaining cofactor; fuel-bounded recursion (fuel at least n suffices). -/
def stripFactor : Nat → Nat → Nat → Nat × Nat
  | 0, _, n => (0, n)
  | fuel + 1, p, n =>
    if 2 ≤ p ∧ n ≠ 0 ∧ n % p = 0 then
      let r := stripFactor fuel p (n / p)
      (r.1 + 1, r.2)
    else (0, n)

/-- Smallest k with den dividing 10 ^ k, when one exists: factor the
denominator as 2 ^ a * 5 ^ b * rest and require rest = 1. -/
def decExponent (den : Nat) : Option Nat :=
  let r2 := stripFactor den 2 den
  let r5 := stripFactor r2.2 5 r2.2
  if r5.2 = 1 then some (max r2.1 r5.1) else none

/-- Left-pad a digit list with zeros to length k. -/
def padZeros (k : Nat) (ds : List Char) : List Char :=
  List.replicate (k - ds.length) '0' ++ ds

/-- Model of the JS Number-to-string conversion applied by the template
literals in exportData: integers print without a decimal point, other
finite-decimal values print sign, integer part, point, and the minimal
run of fraction digits.  Values without a finite decimal expansion (which
do not arise from the modelled inputs) fall back to a fraction rendering. -/
def ratToString (q : ℚ) : String :=
  match decExponent q.den with
  | some 0 => toString q.num
  | some k =>
    let scaled : Nat := q.num.natAbs * ((10 ^ k) / q.den)
    let ip := scaled / 10 ^ k
    let fp := scaled % 10 ^ k
    (if q.num < 0 then "-" else "") ++ toString ip ++ "." ++
      String.mk (padZeros k (Nat.toDigits 10 fp))
  | none => toString q.num ++ "/" ++ toString q.den

/-- Asset record as built by handleAssetSubmit / parseCSV in app.js. -/
structure Asset where
  id : String
  name : String
  category : String
  purchaseDate : String
  purchasePrice : ℚ
  currentValue : ℚ
  associatedDebtId : Option String
  notes : String
  createdAt : String
  updatedAt : String
deriving DecidableEq

/-- Liability record as built by handleLiabilitySubmit / parseCSV. -/
structure Liability where
  id : String
  name : String
  category : String
  originalAmount : ℚ
  currentBalance : ℚ
  interestRate : ℚ
  startDate : String
  associatedAssetId : Option String
  notes : String
  createdAt : String
  updatedAt : String
deriving DecidableEq

/-- Snapshot record as built by takeSnapshot (app.js:680). -/
structure Snapshot where
  id : String
  date : String
  totalAssets : ℚ
  totalLiabilities : ℚ
  netWorth : ℚ
  notes : String
deriving DecidableEq

/-- The three module-level arrays of app.js, gathered into one state. -/
structure Store where
  assets : List Asset
  liabilities : List Liability
  snapshots : List Snapshot
deriving DecidableEq

def emptyStore : Store := ⟨[], [], []⟩

/-- app.js:144 calculateTotalAssets: reduce over assets adding
currentValue, starting from 0 (parseFloat of a number is that number). -/
def calculateTotalAssets (s : Store) : ℚ :=
  s.assets.foldl (fun total asset => total + asset.currentValue) 0

/-- app.js:148 calculateTotalLiabilities. -/
def calculateTotalLiabilities (s : Store) : ℚ :=
  s.liabilities.foldl (fun total liability => total + liability.currentBalance) 0

/-- app.js:152 calculateNetWorth. -/
def calculateNetWorth (s : Store) : ℚ :=
  calculateTotalAssets s - calculateTotalLiabilities s

/-- app.js:156 calculateAssetEquity: a falsy associatedDebtId (null in
every store-produced record) or an unresolved id yields currentValue,
otherwise currentValue minus the found debt balance. -/
def calculateAssetEquity (s : Store) (asset : Asset) : ℚ :=
  match asset.associatedDebtId with
  | none => asset.currentValue
  | some debtId =>
    match s.liabilities.find? (fun l => l.id == debtId) with
    | none => asset.currentValue
    | some debt => asset.currentValue - debt.currentBalance

/-- Exact division except that a zero divisor, whose JS float result is
NaN or an infinity, returns none. -/
def jsDiv (a b : ℚ) : Option ℚ :=
  if b = 0 then none else some (a / b)

/-- app.js:177 calculatePayoffPercentage: (originalAmount -
currentBalance) / originalAmount * 100, with no guard on a zero
originalAmount; the non-finite result of that unguarded division is
modelled by none. -/
def calculatePayoffPercentage (liability : Liability) : Option ℚ :=
  let paid := liability.originalAmount - liability.currentBalance
  (jsDiv paid liability.originalAmount).map (fun q => q * 100)

/-- The asset form fields read by handleAssetSubmit (app.js:595).  The two
number inputs carry the already parsed values: the HTML number fields only
submit strings that parseFloat maps to these rationals, and the validation
gate below (upsertAsset) models the raw-string check. -/
structure AssetForm where
  name : String
  category : String
  purchaseDate : String
  purchasePrice : ℚ
  currentValue : ℚ
  associatedDebt : String
  notes : String
deriving DecidableEq

/-- The liability form fields read by handleLiabilitySubmit (app.js:623).
interestRate is the value of the expression parseFloat(...) with the
zero fallback of the source already applied. -/
structure LiabilityForm where
  name : String
  category : String
  originalAmount : ℚ
  currentBalance : ℚ
  interestRate : ℚ
  startDate : String
  associatedAsset : String
  notes : String
deriving DecidableEq

/-- The assetData object literal of app.js:595, for a given record id
and createdAt. -/
def assetDataOf (recId : String) (f : AssetForm) (createdAt now : String) : Asset :=
  { id := recId
    name := f.name
    category := f.category
    purchaseDate := f.purchaseDate
    purchasePrice := f.purchasePrice
    currentValue := f.currentValue
    associatedDebtId := if f.associatedDebt = "" then none else some f.associatedDebt
    notes := f.notes
    createdAt := createdAt
    updatedAt := now }

/-- app.js:592 handleAssetSubmit.  editing is the module variable
editingAssetId; freshId stands for the generateId() call and now for the
two new Date().toISOString() calls.  Returns none exactly where the JS
throws: reading createdAt of an absent record when editing names a
missing id (the source then leaves the array unchanged). -/
def handleAssetSubmit (s : Store) (editing : Option String) (f : AssetForm)
    (freshId now : String) : Option Store :=
  let recId := match editing with
    | some e => e
    | none => freshId
  let createdAtFound : Option String := match editing with
    | some e => (s.assets.find? (fun a => a.id == e)).map (fun a => a.createdAt)
    | none => some now
  match createdAtFound with
  | none => none
  | some createdAt =>
    let assetData : Asset := assetDataOf recId f createdAt now
    match editing with
    | some e =>
      match s.assets.findIdx? (fun a => a.id == e) with
      | some index => some { s with assets := s.assets.set index assetData }
      | none => none
    | none => some { s with assets := s.assets ++ [assetData] }

/-- The liabilityData object literal of app.js:623. -/
def liabilityDataOf (recId : String) (f : LiabilityForm) (createdAt now : String) : Liability :=
  { id := recId
    name := f.name
    category := f.category
    originalAmount := f.originalAmount
    currentBalance := f.currentBalance
    interestRate := f.interestRate
    startDate := f.startDate
    associatedAssetId := if f.associatedAsset = "" then none else some f.associatedAsset
    notes := f.notes
    createdAt := createdAt
    updatedAt := now }

/-- app.js:620 handleLiabilitySubmit, the liability analogue. -/
def handleLiabilitySubmit (s : Store) (editing : Option String) (f : LiabilityForm)
    (freshId now : String) : Option Store :=
  let recId := match editing with
    | some e => e
    | none => freshId
  let createdAtFound : Option String := match editing with
    | some e => (s.liabilities.find? (fun l => l.id == e)).map (fun l => l.createdAt)
    | none => some now
  match createdAtFound with
  | none => none
  | some createdAt =>
    let liabilityData : Liability := liabilityDataOf recId f createdAt now
    match editing with
    | some e =>
      match s.liabilities.findIdx? (fun l => l.id == e) with
      | some index => some { s with liabilities := s.liabilities.set index liabilityData }
      | none => none
    | none => some { s with liabilities := s.liabilities ++ [liabilityData] }

/-- app.js:655 deleteAsset, the confirmed branch: keep every asset whose
id differs. -/
def deleteAsset (s : Store) (id : String) : Store :=
  { s with assets := s.assets.filter (fun a => a.id != id) }

/-- app.js:667 deleteLiability, the confirmed branch. -/
def deleteLiability (s : Store) (id : String) : Store :=
  { s with liabilities := s.liabilities.filter (fun l => l.id != id) }

/-- app.js:851 deleteAllData, the doubly confirmed branch: all three
collections are cleared. -/
def deleteAllData (_ : Store) : Store := emptyStore

/-- app.js:677 takeSnapshot: build a snapshot from the current totals and
push it; freshId stands for generateId() and date for the ISO timestamp.
The prompt for notes is a collaborator, its result is the notes argument
(the source replaces a null prompt result by the empty string). -/
def takeSnapshot (s : Store) (freshId date notes : String) : Store :=
  let snapshot : Snapshot :=
    { id := freshId
      date := date
      totalAssets := calculateTotalAssets s
      totalLiabilities := calculateTotalLiabilities s
      netWorth := calculateNetWorth s
      notes := notes }
  { s with snapshots := s.snapshots ++ [snapshot] }

/-- The fixed header line of exportData (app.js:710). -/
def csvHeader : String :=
  "Type,Name,Category,Purchase Date,Purchase Price,Current Value,Original Amount,Current Balance,Interest Rate,Start Date,Notes"

/-- One asset row of exportData (app.js:714): name and notes are wrapped
in double quotes, the five liability-only columns are left empty. -/
def exportAssetRow (a : Asset) : String :=
  "Asset,\"" ++ a.name ++ "\"," ++ a.category ++ "," ++ a.purchaseDate ++ ","
    ++ ratToString a.purchasePrice ++ "," ++ ratToString a.currentValue
    ++ ",,,,,\"" ++ a.notes ++ "\"\n"

/-- One liability row of exportData (app.js:719).  The source template
puts only three commas between the category and originalAmount, and its
notes interpolation is the syntactically malformed expression flagged in
the spec; it is modelled by its most direct reading, a stray double-quote
character when notes is empty.  Neither point affects the claims below,
which hinge on the column count before originalAmount. -/
def exportLiabilityRow (l : Liability) : String :=
  "Liability,\"" ++ l.name ++ "\"," ++ l.category ++ ",,,"
    ++ ratToString l.originalAmount ++ "," ++ ratToString l.currentBalance
    ++ "," ++ ratToString l.interestRate ++ "," ++ l.startDate
    ++ ",\"" ++ (if l.notes = "" then "\"" else l.notes) ++ "\"\n"

/-- app.js:709 exportData: header, then one row per asset, then one row
per liability, in store order. -/
def exportData (s : Store) : String :=
  let csv := csvHeader ++ "\n"
  let csv := s.assets.foldl (fun acc a => acc ++ exportAssetRow a) csv
  s.liabilities.foldl (fun acc l => acc ++ exportLiabilityRow l) csv

/-- app.js:827 parseCSVLine loop state: remaining characters, current
field (reversed), inQuotes flag, completed fields (reversed).  A double
quote only toggles inQuotes and is never emitted; a comma outside quotes
closes the current field; every other character joins the current
field. -/
def parseCSVLineAux : List Char → List Char → Bool → List (List Char) → List (List Char)
  | [], current, _, result => (trimChars current.reverse :: result).reverse
  | c :: cs, current, inQuotes, result =>
    if c = '"' then
      parseCSVLineAux cs current (!inQuotes) result
    else if c = ',' ∧ inQuotes = false then
      parseCSVLineAux cs [] inQuotes (trimChars current.reverse :: result)
    else
      parseCSVLineAux cs (c :: current) inQuotes result

/-- app.js:827 parseCSVLine. -/
def parseCSVLine (line : String) : List String :=
  (parseCSVLineAux line.data [] false []).map String.mk

/-- The acceptance test of the Asset branch of parseCSV (app.js:798):
name, category and purchaseDate truthy (non-empty) and both parsed
prices not NaN. -/
def assetRowOk (fields : List String) : Bool :=
  fields.getD 1 "" != "" && fields.getD 2 "" != "" && fields.getD 3 "" != ""
    && (jsParseFloat (fields.getD 4 "")).isSome
    && (jsParseFloat (fields.getD 5 "")).isSome

/-- The acceptance test of the Liability branch of parseCSV
(app.js:817). -/
def liabilityRowOk (fields : List String) : Bool :=
  fields.getD 1 "" != "" && fields.getD 2 "" != ""
    && (jsParseFloat (fields.getD 6 "")).isSome
    && (jsParseFloat (fields.getD 7 "")).isSome
    && fields.getD 9 "" != ""

/-- The asset object built at app.js:785 for a row, before the
acceptance test (the numeric defaults only surface in accepted rows,
where the parses succeed). -/
def mkImportedAsset (fields : List String) (id now : String) : Asset :=
  { id := id
    name := fields.getD 1 ""
    category := fields.getD 2 ""
    purchaseDate := fields.getD 3 ""
    purchasePrice := (jsParseFloat (fields.getD 4 "")).getD 0
    currentValue := (jsParseFloat (fields.getD 5 "")).getD 0
    associatedDebtId := none
    notes := fields.getD 10 ""
    createdAt := now
    updatedAt := now }

/-- The liability object built at app.js:803; interestRate applies the
zero fallback of parseFloat(fields[8]) || 0. -/
def mkImportedLiability (fields : List String) (id now : String) : Liability :=
  { id := id
    name := fields.getD 1 ""
    category := fields.getD 2 ""
    originalAmount := (jsParseFloat (fields.getD 6 "")).getD 0
    currentBalance := (jsParseFloat (fields.getD 7 "")).getD 0
    interestRate := (jsParseFloat (fields.getD 8 "")).getD 0
    startDate := fields.getD 9 ""
    associatedAssetId := none
    notes := fields.getD 10 ""
    createdAt := now
    updatedAt := now }

/-- Counts returned by parseCSV (app.js:824). -/
structure CsvCounts where
  assetsAdded : Nat
  liabilitiesAdded : Nat
deriving DecidableEq

/-- The body of the parseCSV loop (app.js:777) for one data line.  The
accumulator carries the store, the running counts, and the index of the
next fresh id, advanced exactly where the source calls generateId. -/
def processRow (idGen : Nat → String) (now : String)
    (acc : Store × CsvCounts × Nat) (line : String) : Store × CsvCounts × Nat :=
  let fields := parseCSVLine line
  if fields.length < 11 then acc
  else
    let rowType := jsTrim (fields.getD 0 "")
    if rowType = "Asset" then
      let s := acc.1
      let asset := mkImportedAsset fields (idGen acc.2.2) now
      if assetRowOk fields then
        ({ s with assets := s.assets ++ [asset] },
          { acc.2.1 with assetsAdded := acc.2.1.assetsAdded + 1 }, acc.2.2 + 1)
      else (acc.1, acc.2.1, acc.2.2 + 1)
    else if rowType = "Liability" then
      let s := acc.1
      let liability := mkImportedLiability fields (idGen acc.2.2) now
      if liabilityRowOk fields then
        ({ s with liabilities := s.liabilities ++ [liability] },
          { acc.2.1 with liabilitiesAdded := acc.2.1.liabilitiesAdded + 1 }, acc.2.2 + 1)
      else (acc.1, acc.2.1, acc.2.2 + 1)
    else acc

/-- The non-blank lines of the CSV text (app.js:772). -/
def csvLines (csvText : String) : List String :=
  ((splitOnChar '\n' csvText.data).map String.mk).filter (fun line => jsTrim line != "")

/-- app.js:771 parseCSV: split into non-blank lines, skip the first
(header) line, and run the row loop over the rest against the given
store. -/
def parseCSV (idGen : Nat → String) (now : String) (s : Store)
    (csvText : String) : Store × CsvCounts :=
  let res := ((csvLines csvText).drop 1).foldl (processRow idGen now) (s, ⟨0, 0⟩, 0)
  (res.1, res.2.1)

/-- Error kinds surfaced by the validated upsert wrappers. -/
inductive UpsertError where
  | validationError
  | editTargetMissing
deriving DecidableEq

/-- The asset form as raw strings, before any numeric parsing. -/
structure RawAssetForm where
  name : String
  category : String
  purchaseDate : String
  purchasePrice : String
  currentValue : String
  associatedDebt : String
  notes : String
deriving DecidableEq

/-- Modelled from the spec: upsertAsset of section 4.1.  The required and
numeric constraints of the asset form live in the HTML form declarations
(index.html), which are not under src/; per the spec, the operation
requires id, name and category non-empty and both prices to parse as
finite numbers, fails with ValidationError otherwise (producing no store
change), and on success performs exactly the handleAssetSubmit mutation
of app.js.  editTargetMissing models the source TypeError when editing
names an absent id. -/
def upsertAsset (s : Store) (editing : Option String) (f : RawAssetForm)
    (freshId now : String) : Except UpsertError Store :=
  let recId := editing.getD freshId
  match jsParseFloat f.purchasePrice, jsParseFloat f.currentValue with
  | some pp, some cv =>
    if recId ≠ "" ∧ f.name ≠ "" ∧ f.category ≠ "" then
      match handleAssetSubmit s editing
          { name := f.name, category := f.category, purchaseDate := f.purchaseDate
            purchasePrice := pp, currentValue := cv
            associatedDebt := f.associatedDebt, notes := f.notes } freshId now with
      | some s2 => .ok s2
      | none => .error .editTargetMissing
    else .error .validationError
  | _, _ => .error .validationError

/-! Concrete fixtures used by the witness theorems, built from the
scenario of spec section 8. -/

def wLiability : Liability :=
  { id := "l1", name := "Home Mortgage", category := "Mortgage"
    originalAmount := 250000, currentBalance := 240000, interestRate := 3.5
    startDate := "2020-01-01", associatedAssetId := none, notes := ""
    createdAt := "t0", updatedAt := "t0" }

def wAsset : Asset :=
  { id := "a1", name := "Home", category := "Real Estate"
    purchaseDate := "2020-01-01", purchasePrice := 300000, currentValue := 350000
    associatedDebtId := some "l1", notes := "", createdAt := "t0", updatedAt := "t0" }

def wStore : Store := { assets := [wAsset], liabilities := [wLiability], snapshots := [] }

def wIdGen : Nat → String := fun n => "import" ++ toString n

def wPaidLiability : Liability := { wLiability with originalAmount := 1000, currentBalance := 400 }

def wZeroLiability : Liability := { wLiability with originalAmount := 0, currentBalance := 400 }

def wAssetForm : AssetForm :=
  { name := "Home", category := "Real Estate", purchaseDate := "2020-01-01"
    purchasePrice := 300000, currentValue := 360000, associatedDebt := "l1", notes := "" }

def wLiabilityForm : LiabilityForm :=
  { name := "Home Mortgage", category := "Mortgage", originalAmount := 250000
    currentBalance := 230000, interestRate := 3.5, startDate := "2020-01-01"
    associatedAsset := "", notes := "" }

/-- A liability with integer fields, exported in the round-trip check. -/
def c1Liability : Liability :=
  { id := "l9", name := "Home Mortgage", category := "Mortgage"
    originalAmount := 250000, currentBalance := 240000, interestRate := 4
    startDate := "2020-01-01", associatedAssetId := none, notes := ""
    createdAt := "t0", updatedAt := "t0" }

/-- An unlinked asset, exported in the round-trip check. -/
def c1Asset : Asset :=
  { id := "a9", name := "Home", category := "Real Estate"
    purchaseDate := "2020-01-01", purchasePrice := 300000, currentValue := 350000
    associatedDebtId := none, notes := "", createdAt := "t0", updatedAt := "t0" }

/-- The round-trip input store: one asset and one liability. -/
def c1Store : Store := { assets := [c1Asset], liabilities := [c1Liability], snapshots := [] }

/-- A store with one snapshot already taken, for the immutability witness. -/
def wSnapStore : Store := takeSnapshot wStore "s1" "d1" ""

/-- The store after editing the asset of wSnapStore to a new currentValue. -/
def wEditedStore : Store :=
  (handleAssetSubmit wSnapStore (some "a1") wAssetForm "fid" "t2").getD emptyStore

/-! Helper lemmas shared between the claim theorems. -/

theorem foldl_add_map_sum (f : α → ℚ) :
    ∀ (l : List α) (init : ℚ), l.foldl (fun t x => t + f x) init = init + (l.map f).sum := by
  intro l
  induction l with
  | nil => intro init; simp
  | cons x xs ih =>
    intro init
    simp only [List.foldl_cons, List.map_cons, List.sum_cons, ih]
    ring

/-- One parseCSV loop step only ever appends to the asset and liability
collections, adds the appended lengths to the counts, and leaves the
snapshots untouched. -/
theorem processRow_extends (idGen : Nat → String) (now : String)
    (s : Store) (r : CsvCounts) (nid : Nat) (line : String) :
    ∃ na nl nid2, processRow idGen now (s, r, nid) line =
      ({ s with assets := s.assets ++ na, liabilities := s.liabilities ++ nl },
        ⟨r.assetsAdded + na.length, r.liabilitiesAdded + nl.length⟩, nid2) := by
  unfold processRow
  by_cases h1 : (parseCSVLine line).length < 11
  · exact ⟨[], [], nid, by simp [h1]⟩
  · by_cases h2 : jsTrim ((parseCSVLine line)[0]?.getD "") = "Asset"
    · by_cases h3 : assetRowOk (parseCSVLine line) = true
      · exact ⟨[mkImportedAsset (parseCSVLine line) (idGen nid) now], [], nid + 1,
          by simp [h1, h2, h3]⟩
      · exact ⟨[], [], nid + 1, by simp [h1, h2, h3]⟩
    · by_cases h4 : jsTrim ((parseCSVLine line)[0]?.getD "") = "Liability"
      · by_cases h5 : liabilityRowOk (parseCSVLine line) = true
        · exact ⟨[], [mkImportedLiability (parseCSVLine line) (idGen nid) now], nid + 1,
            by simp [h1, h2, h4, h5]⟩
        · exact ⟨[], [], nid + 1, by simp [h1, h2, h4, h5]⟩
      · exact ⟨[], [], nid, by simp [h1, h2, h4]⟩

/-- The parseCSV loop over any list of lines appends to the collections,
counts exactly what it appends, and preserves the snapshots. -/
theorem foldl_processRow_extends (idGen : Nat → String) (now : String) :
    ∀ (lines : List String) (s : Store) (r : CsvCounts) (nid : Nat),
      ∃ na nl nid2, lines.foldl (processRow idGen now) (s, r, nid) =
        ({ s with assets := s.assets ++ na, liabilities := s.liabilities ++ nl },
          ⟨r.assetsAdded + na.length, r.liabilitiesAdded + nl.length⟩, nid2) := by
  intro lines
  induction lines with
  | nil =>
    intro s r nid
    exact ⟨[], [], nid, by simp⟩
  | cons line rest ih =>
    intro s r nid
    obtain ⟨na1, nl1, nid1, h1⟩ := processRow_extends idGen now s r nid line
    obtain ⟨na2, nl2, nid2, h2⟩ :=
      ih { s with assets := s.assets ++ na1, liabilities := s.liabilities ++ nl1 }
        ⟨r.assetsAdded + na1.length, r.liabilitiesAdded + nl1.length⟩ nid1
    refine ⟨na1 ++ na2, nl1 ++ nl2, nid2, ?_⟩
    rw [List.foldl_cons, h1, h2]
    simp [List.append_assoc, Nat.add_assoc]

/-- handleAssetSubmit never touches the snapshot history. -/
theorem handleAssetSubmit_snapshots (s : Store) (editing : Option String)
    (f : AssetForm) (freshId now : String) :
    ∀ s2, handleAssetSubmit s editing f freshId now = some s2 →
      s2.snapshots = s.snapshots := by
  intro s2 h
  unfold handleAssetSubmit at h
  cases editing with
  | none =>
    simp only [Option.some.injEq] at h
    subst h
    rfl
  | some e =>
    dsimp only at h
    rcases hf : List.find? (fun a => a.id == e) s.assets with _ | a0
    · rw [hf] at h
      simp at h
    · rw [hf] at h
      rcases hi : List.findIdx? (fun a => a.id == e) s.assets with _ | i
      · rw [hi] at h
        simp at h
      · rw [hi] at h
        simp only [Option.map, Option.some.injEq] at h
        subst h
        rfl

/-- handleLiabilitySubmit never touches the snapshot history. -/
theorem handleLiabilitySubmit_snapshots (s : Store) (editing : Option String)
    (f : LiabilityForm) (freshId now : String) :
    ∀ s2, handleLiabilitySubmit s editing f freshId now = some s2 →
      s2.snapshots = s.snapshots := by
  intro s2 h
  unfold handleLiabilitySubmit at h
  cases editing with
  | none =>
    simp only [Option.some.injEq] at h
    subst h
    rfl
  | some e =>
    dsimp only at h
    rcases hf : List.find? (fun l => l.id == e) s.liabilities with _ | l0
    · rw [hf] at h
      simp at h
    · rw [hf] at h
      rcases hi : List.findIdx? (fun l => l.id == e) s.liabilities with _ | i
      · rw [hi] at h
        simp at h
      · rw [hi] at h
        simp only [Option.map, Option.some.injEq] at h
        subst h
        rfl

/-! Claim theorems. -/

/-- C3: for every store state, calculateNetWorth equals
calculateTotalAssets minus calculateTotalLiabilities, the two totals are
the arithmetic sums of currentValue over all assets and currentBalance
over all liabilities, and both are 0 on an empty collection. -/
theorem netWorth_is_assets_minus_liabilities :
    (∀ s : Store,
      calculateNetWorth s = calculateTotalAssets s - calculateTotalLiabilities s
      ∧ calculateTotalAssets s = (s.assets.map (fun a => a.currentValue)).sum
      ∧ calculateTotalLiabilities s = (s.liabilities.map (fun l => l.currentBalance)).sum)
    ∧ (∀ ls ss, calculateTotalAssets ⟨[], ls, ss⟩ = 0)
    ∧ (∀ az ss, calculateTotalLiabilities ⟨az, [], ss⟩ = 0) := by
  refine ⟨fun s => ⟨rfl, ?_, ?_⟩, fun ls ss => rfl, fun az ss => rfl⟩
  · simpa using foldl_add_map_sum (fun a : Asset => a.currentValue) s.assets 0
  · simpa using foldl_add_map_sum (fun l : Liability => l.currentBalance) s.liabilities 0

/-- C2: calculateAssetEquity returns currentValue when the asset has no
associatedDebtId, or when no liability in the store carries that id
(including the dangling reference left by deleteLiability), and returns
currentValue minus the found liability balance otherwise. -/
theorem assetEquity_resolution (s : Store) (a : Asset) :
    (a.associatedDebtId = none → calculateAssetEquity s a = a.currentValue)
    ∧ (∀ d, a.associatedDebtId = some d → (∀ l ∈ s.liabilities, l.id ≠ d) →
        calculateAssetEquity s a = a.currentValue)
    ∧ (∀ d l, a.associatedDebtId = some d →
        s.liabilities.find? (fun x => x.id == d) = some l →
        calculateAssetEquity s a = a.currentValue - l.currentBalance)
    ∧ (∀ d, a.associatedDebtId = some d →
        calculateAssetEquity (deleteLiability s d) a = a.currentValue) := by
  refine ⟨?_, ?_, ?_, ?_⟩
  · intro h
    simp [calculateAssetEquity, h]
  · intro d hd hnone
    have hfind : s.liabilities.find? (fun x => x.id == d) = none := by
      rw [List.find?_eq_none]
      intro l hl
      simp [hnone l hl]
    simp [calculateAssetEquity, hd, hfind]
  · intro d l hd hfind
    simp [calculateAssetEquity, hd, hfind]
  · intro d hd
    have hfind : (deleteLiability s d).liabilities.find? (fun x => x.id == d) = none := by
      rw [List.find?_eq_none]
      intro l hl
      have hmem : l ∈ s.liabilities.filter (fun x => x.id != d) := hl
      have h2 := (List.mem_filter.mp hmem).2
      simp only [bne_iff_ne, ne_eq] at h2
      simp [h2]
    simp [calculateAssetEquity, hd, hfind]

/-- C2 witness: in the spec scenario store the linked asset has equity
110000, and after deleting the linked liability it degrades to the full
currentValue 350000. -/
theorem assetEquity_resolution_witness :
    calculateAssetEquity wStore wAsset = 110000
    ∧ calculateAssetEquity (deleteLiability wStore "l1") wAsset = 350000 := by
  constructor
  · have h := (assetEquity_resolution wStore wAsset).2.2.1 "l1" wLiability rfl rfl
    rw [h]
    norm_num [wAsset, wLiability]
  · have h := (assetEquity_resolution wStore wAsset).2.2.2 "l1" rfl
    rw [h]
    norm_num [wAsset]

/-- C8 counterexample: with originalAmount 0 the unguarded division in
calculatePayoffPercentage produces a JS non-finite value (none in this
model); the code neither raises an error nor returns the fallback 0
claimed as the alternative, so the result differs from some 0. -/
theorem payoffPercentage_zero_counterexample :
    calculatePayoffPercentage wZeroLiability = none
    ∧ calculatePayoffPercentage wZeroLiability ≠ some 0 := by
  refine ⟨?_, ?_⟩ <;>
    simp [calculatePayoffPercentage, jsDiv, wZeroLiability, wLiability]

/-- C8 amended: calculatePayoffPercentage equals (originalAmount -
currentBalance) / originalAmount * 100 whenever originalAmount is not 0,
yields 60 for originalAmount 1000 and currentBalance 400, and when
originalAmount is 0 the unguarded division yields a JS non-finite value
(modelled none) rather than an error or the fallback 0. -/
theorem payoffPercentage_formula :
    (∀ l : Liability, l.originalAmount ≠ 0 →
      calculatePayoffPercentage l =
        some ((l.originalAmount - l.currentBalance) / l.originalAmount * 100))
    ∧ (∀ l : Liability, l.originalAmount = 0 → calculatePayoffPercentage l = none)
    ∧ calculatePayoffPercentage wPaidLiability = some 60 := by
  refine ⟨?_, ?_, by norm_num [calculatePayoffPercentage, jsDiv, wPaidLiability, wLiability]⟩
  · intro l h
    simp [calculatePayoffPercentage, jsDiv, h]
  · intro l h
    simp [calculatePayoffPercentage, jsDiv, h]

/-- C8 witness: the formula branch applied to the concrete liability with
originalAmount 1000 and currentBalance 400 evaluates to 60. -/
theorem payoffPercentage_formula_witness :
    calculatePayoffPercentage wPaidLiability =
      some ((wPaidLiability.originalAmount - wPaidLiability.currentBalance)
        / wPaidLiability.originalAmount * 100) :=
  payoffPercentage_formula.1 wPaidLiability (by norm_num [wPaidLiability, wLiability])

/-- C9: takeSnapshot is a total function of the store (its numeric inputs
are the finite store values) that always appends exactly one snapshot to
the history and leaves the asset and liability collections unchanged. -/
theorem takeSnapshot_always_appends (s : Store) (freshId date notes : String) :
    (∃ snap, (takeSnapshot s freshId date notes).snapshots = s.snapshots ++ [snap])
    ∧ (takeSnapshot s freshId date notes).assets = s.assets
    ∧ (takeSnapshot s freshId date notes).liabilities = s.liabilities :=
  ⟨⟨_, rfl⟩, rfl, rfl⟩

/-- C4: takeSnapshot appends one snapshot carrying the totals computed
from the store at capture time, with the supplied fresh id, timestamp and
note; stored snapshots are frozen: every asset or liability mutation of
the application (form submits, deletes, CSV import) leaves the snapshot
history unchanged, and only deleteAllData removes snapshots. -/
theorem takeSnapshot_frozen_history :
    (∀ (s : Store) (freshId date notes : String),
      (takeSnapshot s freshId date notes).snapshots = s.snapshots ++
        [{ id := freshId, date := date, totalAssets := calculateTotalAssets s
           totalLiabilities := calculateTotalLiabilities s
           netWorth := calculateNetWorth s, notes := notes }])
    ∧ (∀ (s : Store) (editing : Option String) (f : AssetForm) (freshId now : String)
        (s2 : Store), handleAssetSubmit s editing f freshId now = some s2 →
          s2.snapshots = s.snapshots)
    ∧ (∀ (s : Store) (editing : Option String) (f : LiabilityForm) (freshId now : String)
        (s2 : Store), handleLiabilitySubmit s editing f freshId now = some s2 →
          s2.snapshots = s.snapshots)
    ∧ (∀ (s : Store) (id : String), (deleteAsset s id).snapshots = s.snapshots)
    ∧ (∀ (s : Store) (id : String), (deleteLiability s id).snapshots = s.snapshots)
    ∧ (∀ (idGen : Nat → String) (now : String) (s : Store) (text : String),
        (parseCSV idGen now s text).1.snapshots = s.snapshots)
    ∧ (∀ s : Store, (deleteAllData s).snapshots = []) := by
  refine ⟨fun s freshId date notes => rfl,
    fun s editing f freshId now => handleAssetSubmit_snapshots s editing f freshId now,
    fun s editing f freshId now => handleLiabilitySubmit_snapshots s editing f freshId now,
    fun s id => rfl, fun s id => rfl, ?_, fun s => rfl⟩
  intro idGen now s text
  unfold parseCSV
  obtain ⟨na, nl, nid2, h⟩ :=
    foldl_processRow_extends idGen now ((csvLines text).drop 1) s ⟨0, 0⟩ 0
  rw [h]

/-- C4 witness: after taking a snapshot of the scenario store, editing the
asset to a new currentValue leaves the stored snapshot history as it
was. -/
theorem takeSnapshot_frozen_history_witness :
    wEditedStore.snapshots = wSnapStore.snapshots :=
  takeSnapshot_frozen_history.2.1 wSnapStore (some "a1") wAssetForm "fid" "t2"
    wEditedStore rfl

/-- C6: submitting the asset (or liability) form in editing mode for an
id present in the store replaces that record in place at its index,
keeping the original createdAt and refreshing updatedAt to the submit
time, while submitting with no editing id appends a fresh record at the
end of the sequence.  In the source the editing id is always the id of
the record being edited, so an id match is exactly the editing-mode
path. -/
theorem upsert_replaces_in_place_or_appends :
    (∀ (s : Store) (e : String) (f : AssetForm) (freshId now : String) (i : Nat) (a0 : Asset),
      s.assets.findIdx? (fun x => x.id == e) = some i →
      s.assets.find? (fun x => x.id == e) = some a0 →
      handleAssetSubmit s (some e) f freshId now =
        some { s with assets := s.assets.set i (assetDataOf e f a0.createdAt now) })
    ∧ (∀ (s : Store) (f : AssetForm) (freshId now : String),
      handleAssetSubmit s none f freshId now =
        some { s with assets := s.assets ++ [assetDataOf freshId f now now] })
    ∧ (∀ (s : Store) (e : String) (f : LiabilityForm) (freshId now : String) (i : Nat)
        (l0 : Liability),
      s.liabilities.findIdx? (fun x => x.id == e) = some i →
      s.liabilities.find? (fun x => x.id == e) = some l0 →
      handleLiabilitySubmit s (some e) f freshId now =
        some { s with liabilities := s.liabilities.set i (liabilityDataOf e f l0.createdAt now) })
    ∧ (∀ (s : Store) (f : LiabilityForm) (freshId now : String),
      handleLiabilitySubmit s none f freshId now =
        some { s with liabilities := s.liabilities ++ [liabilityDataOf freshId f now now] }) := by
  refine ⟨?_, fun s f freshId now => rfl, ?_, fun s f freshId now => rfl⟩
  · intro s e f freshId now i a0 hi hf
    unfold handleAssetSubmit
    dsimp only
    rw [hf, hi]
    rfl
  · intro s e f freshId now i l0 hi hf
    unfold handleLiabilitySubmit
    dsimp only
    rw [hf, hi]
    rfl

/-- C6 witness: editing the asset of the scenario store by its id "a1"
replaces it at index 0, preserving createdAt t0 and refreshing updatedAt
to t2. -/
theorem upsert_replaces_in_place_or_appends_witness :
    handleAssetSubmit wStore (some "a1") wAssetForm "fid" "t2" =
      some { wStore with assets :=
        wStore.assets.set 0 (assetDataOf "a1" wAssetForm wAsset.createdAt "t2") } :=
  upsert_replaces_in_place_or_appends.1 wStore "a1" wAssetForm "fid" "t2" 0 wAsset rfl rfl

/-- C7: upsertAsset fails with ValidationError, producing no store
change, exactly when a required field (id, name, category) is empty or a
required numeric field does not parse to a finite number; the validation
itself is modelled from the spec because it is enforced by the HTML form
declarations, which are not part of src/. -/
theorem upsertAsset_requires_valid_fields (s : Store) (editing : Option String)
    (f : RawAssetForm) (freshId now : String) :
    upsertAsset s editing f freshId now = Except.error UpsertError.validationError ↔
      ¬(editing.getD freshId ≠ "" ∧ f.name ≠ "" ∧ f.category ≠ ""
        ∧ (jsParseFloat f.purchasePrice).isSome = true
        ∧ (jsParseFloat f.currentValue).isSome = true) := by
  unfold upsertAsset
  rcases hpp : jsParseFloat f.purchasePrice with _ | pp <;>
    rcases hcv : jsParseFloat f.currentValue with _ | cv <;>
      simp only [Option.isSome_none, Option.isSome_some]
  · simp
  · simp
  · simp
  · by_cases hc : editing.getD freshId ≠ "" ∧ f.name ≠ "" ∧ f.category ≠ ""
    · rw [if_pos hc]
      rcases hs : handleAssetSubmit s editing
          { name := f.name, category := f.category, purchaseDate := f.purchaseDate
            purchasePrice := pp, currentValue := cv
            associatedDebt := f.associatedDebt, notes := f.notes } freshId now with _ | s2
      · simp [hc]
      · simp [hc]
    · rw [if_neg hc]
      simp [hc]

/-- Splitting a list that starts with a separator-free chunk followed by
the separator peels off exactly that chunk. -/
theorem splitOnChar_append (c : Char) :
    ∀ (l rest : List Char), c ∉ l →
      splitOnChar c (l ++ c :: rest) = l :: splitOnChar c rest := by
  intro l
  induction l with
  | nil =>
    intro rest h
    simp [splitOnChar]
  | cons x xs ih =>
    intro rest h
    have hx : ¬ x = c := by
      intro hxc
      exact h (by simp [hxc])
    have hxs : c ∉ xs := fun hm => h (List.mem_cons_of_mem x hm)
    simp only [List.cons_append, splitOnChar, if_neg hx, List.append_eq, ih rest hxs]

/-- A non-blank, newline-free first line is the head of csvLines. -/
theorem csvLines_cons (h rest : List Char) (hnl : '\n' ∉ h)
    (hnb : jsTrim (String.mk h) ≠ "") :
    csvLines (String.mk (h ++ '\n' :: rest)) = String.mk h :: csvLines (String.mk rest) := by
  unfold csvLines
  rw [show (String.mk (h ++ '\n' :: rest)).data = h ++ '\n' :: rest from rfl,
    splitOnChar_append '\n' h rest hnl]
  simp [hnb]

/-- C5: parseCSV adds some lists of new asset and liability records at
the ends of the collections and reports exactly their lengths as the
returned counts; every row with fewer than 11 tokens is skipped leaving
the state unchanged; a well-typed row is accepted (appended and counted)
precisely when its required fields are non-empty and its required
numeric fields parse, and a rejected row changes neither the store nor
the counts; and the first non-blank line is discarded as the header, its
content never affecting the result. -/
theorem parseCSV_skips_and_counts :
    (∀ (idGen : Nat → String) (now : String) (s : Store) (text : String),
      ∃ na nl,
        (parseCSV idGen now s text).1.assets = s.assets ++ na
        ∧ (parseCSV idGen now s text).1.liabilities = s.liabilities ++ nl
        ∧ (parseCSV idGen now s text).2.assetsAdded = na.length
        ∧ (parseCSV idGen now s text).2.liabilitiesAdded = nl.length)
    ∧ (∀ (idGen : Nat → String) (now : String) (acc : Store × CsvCounts × Nat)
        (line : String), (parseCSVLine line).length < 11 →
          processRow idGen now acc line = acc)
    ∧ (∀ (idGen : Nat → String) (now : String) (s : Store) (r : CsvCounts) (nid : Nat)
        (line : String), ¬ (parseCSVLine line).length < 11 →
        jsTrim ((parseCSVLine line).getD 0 "") = "Asset" →
          (assetRowOk (parseCSVLine line) = true →
            processRow idGen now (s, r, nid) line =
              ({ s with assets :=
                  s.assets ++ [mkImportedAsset (parseCSVLine line) (idGen nid) now] },
                ⟨r.assetsAdded + 1, r.liabilitiesAdded⟩, nid + 1))
          ∧ (assetRowOk (parseCSVLine line) = false →
            processRow idGen now (s, r, nid) line = (s, r, nid + 1)))
    ∧ (∀ (idGen : Nat → String) (now : String) (s : Store) (r : CsvCounts) (nid : Nat)
        (line : String), ¬ (parseCSVLine line).length < 11 →
        jsTrim ((parseCSVLine line).getD 0 "") ≠ "Asset" →
        jsTrim ((parseCSVLine line).getD 0 "") = "Liability" →
          (liabilityRowOk (parseCSVLine line) = true →
            processRow idGen now (s, r, nid) line =
              ({ s with liabilities :=
                  s.liabilities ++ [mkImportedLiability (parseCSVLine line) (idGen nid) now] },
                ⟨r.assetsAdded, r.liabilitiesAdded + 1⟩, nid + 1))
          ∧ (liabilityRowOk (parseCSVLine line) = false →
            processRow idGen now (s, r, nid) line = (s, r, nid + 1)))
    ∧ (∀ (idGen : Nat → String) (now : String) (s : Store) (h1 h2 rest : List Char),
        '\n' ∉ h1 → '\n' ∉ h2 →
        jsTrim (String.mk h1) ≠ "" → jsTrim (String.mk h2) ≠ "" →
        parseCSV idGen now s (String.mk (h1 ++ '\n' :: rest)) =
          parseCSV idGen now s (String.mk (h2 ++ '\n' :: rest))) := by
  refine ⟨?_, ?_, ?_, ?_, ?_⟩
  · intro idGen now s text
    obtain ⟨na, nl, nid2, h⟩ :=
      foldl_processRow_extends idGen now ((csvLines text).drop 1) s ⟨0, 0⟩ 0
    rw [List.drop_one] at h
    refine ⟨na, nl, ?_, ?_, ?_, ?_⟩ <;> simp [parseCSV, h]
  · intro idGen now acc line h1
    unfold processRow
    rw [if_pos h1]
  · intro idGen now s r nid line h1 h2
    constructor
    · intro h3
      unfold processRow
      rw [if_neg h1]
      dsimp only
      rw [if_pos h2, if_pos h3]
    · intro h3
      unfold processRow
      rw [if_neg h1]
      dsimp only
      rw [if_pos h2, if_neg (by simp [h3])]
  · intro idGen now s r nid line h1 h2 h4
    constructor
    · intro h5
      unfold processRow
      rw [if_neg h1]
      dsimp only
      rw [if_neg h2, if_pos h4, if_pos h5]
    · intro h5
      unfold processRow
      rw [if_neg h1]
      dsimp only
      rw [if_neg h2, if_pos h4, if_neg (by simp [h5])]
  · intro idGen now s h1 h2 rest hn1 hn2 hb1 hb2
    unfold parseCSV
    rw [csvLines_cons h1 rest hn1 hb1, csvLines_cons h2 rest hn2 hb2]
    rfl

/-- C5 witness: a short row leaves the state untouched, and an Asset row
with 11 fields but a non-numeric price is dropped without affecting the
store or the counts. -/
theorem parseCSV_skips_and_counts_witness :
    processRow wIdGen "T" (wStore, ⟨0, 0⟩, 0) "a,b,c" = (wStore, ⟨0, 0⟩, 0)
    ∧ processRow wIdGen "T" (wStore, ⟨0, 0⟩, 0) "Asset,X,Cash,2020-01-01,abc,5,,,,,n" =
        (wStore, ⟨0, 0⟩, 1) := by
  constructor
  · exact parseCSV_skips_and_counts.2.1 wIdGen "T" (wStore, ⟨0, 0⟩, 0) "a,b,c" (by decide)
  · exact (parseCSV_skips_and_counts.2.2.1 wIdGen "T" wStore ⟨0, 0⟩ 0
      "Asset,X,Cash,2020-01-01,abc,5,,,,,n" (by decide) (by decide)).2 (by decide)

/-- C7 witness: submitting with an empty name is rejected with
ValidationError. -/
theorem upsertAsset_requires_valid_fields_witness :
    upsertAsset emptyStore none
      { name := "", category := "Real Estate", purchaseDate := "2020-01-01"
        purchasePrice := "1000", currentValue := "900", associatedDebt := ""
        notes := "" } "fresh1" "t1" = Except.error UpsertError.validationError :=
  (upsertAsset_requires_valid_fields emptyStore none
    { name := "", category := "Real Estate", purchaseDate := "2020-01-01"
      purchasePrice := "1000", currentValue := "900", associatedDebt := ""
      notes := "" } "fresh1" "t1").mpr (by simp)

/-- Membership in a dropWhile result implies membership in the list. -/
theorem mem_of_mem_dropWhileJs {p : Char → Bool} :
    ∀ (l : List Char) (x : Char), x ∈ l.dropWhile p → x ∈ l := by
  intro l
  induction l with
  | nil => simp
  | cons y ys ih =>
    intro x hx
    rw [List.dropWhile_cons] at hx
    by_cases hy : p y = true
    · rw [if_pos hy] at hx
      exact List.mem_cons_of_mem y (ih x hx)
    · rw [if_neg hy] at hx
      exact hx

/-- Trimming never introduces characters. -/
theorem mem_of_mem_trimChars (cs : List Char) (x : Char) (hx : x ∈ trimChars cs) :
    x ∈ cs := by
  unfold trimChars at hx
  have h1 := List.mem_reverse.mp hx
  have h2 := List.mem_reverse.mp (mem_of_mem_dropWhileJs _ x h1)
  exact mem_of_mem_dropWhileJs _ x h2

/-- Loop invariant of parseCSVLineAux: if no completed field and not the
current field holds a double quote, no output field holds one; the quote
character itself only toggles the inQuotes flag and is dropped. -/
theorem parseCSVLineAux_no_quote :
    ∀ (cs current : List Char) (q : Bool) (result : List (List Char)),
      (∀ r ∈ result, '"' ∉ r) → '"' ∉ current →
      ∀ f ∈ parseCSVLineAux cs current q result, '"' ∉ f := by
  intro cs
  induction cs with
  | nil =>
    intro current q result hres hcur f hf
    unfold parseCSVLineAux at hf
    rcases List.mem_cons.mp (List.mem_reverse.mp hf) with h | h
    · subst h
      intro hq
      exact hcur (List.mem_reverse.mp (mem_of_mem_trimChars _ _ hq))
    · exact hres f h
  | cons c rest ih =>
    intro current q result hres hcur f hf
    unfold parseCSVLineAux at hf
    by_cases hc : c = '"'
    · rw [if_pos hc] at hf
      exact ih current (!q) result hres hcur f hf
    · rw [if_neg hc] at hf
      by_cases hsep : c = ',' ∧ q = false
      · rw [if_pos hsep] at hf
        refine ih [] q (trimChars current.reverse :: result) ?_ (by simp) f hf
        intro r hr
        rcases List.mem_cons.mp hr with h | h
        · subst h
          intro hq
          exact hcur (List.mem_reverse.mp (mem_of_mem_trimChars _ _ hq))
        · exact hres r h
      · rw [if_neg hsep] at hf
        refine ih (c :: current) q result hres ?_ f hf
        intro hq
        rcases List.mem_cons.mp hq with h | h
        · exact hc h.symm
        · exact hcur h

/-- Loop invariant of parseCSVLineAux: the output always holds at least
one more field than the completed-fields accumulator. -/
theorem parseCSVLineAux_length :
    ∀ (cs current : List Char) (q : Bool) (result : List (List Char)),
      result.length + 1 ≤ (parseCSVLineAux cs current q result).length := by
  intro cs
  induction cs with
  | nil =>
    intro current q result
    unfold parseCSVLineAux
    simp
  | cons c rest ih =>
    intro current q result
    unfold parseCSVLineAux
    by_cases hc : c = '"'
    · rw [if_pos hc]
      exact ih current (!q) result
    · rw [if_neg hc]
      by_cases hsep : c = ',' ∧ q = false
      · rw [if_pos hsep]
        have h := ih [] q (trimChars current.reverse :: result)
        simp only [List.length_cons] at h
        omega
      · rw [if_neg hsep]
        exact ih (c :: current) q result

/-- C10: parseCSVLine is total and returns at least one field on every
input line, and no returned field ever contains a double-quote
character: quotes only toggle the inside-quotes state and are dropped,
so a doubled quote is not an escape and embedded quotes never survive,
as the concrete doubled-quote input shows. -/
theorem parseCSVLine_total_and_quote_free (line : String) :
    1 ≤ (parseCSVLine line).length
    ∧ (∀ f ∈ parseCSVLine line, '"' ∉ f.data)
    ∧ parseCSVLine "\"a\"\"b\"" = ["ab"] := by
  refine ⟨?_, ?_, by decide⟩
  · unfold parseCSVLine
    rw [List.length_map]
    exact parseCSVLineAux_length line.data [] false []
  · intro f hf
    unfold parseCSVLine at hf
    rcases List.mem_map.mp hf with ⟨cs, hcs, hc⟩
    subst hc
    exact parseCSVLineAux_no_quote line.data [] false [] (by simp) (by simp) cs hcs

/-- C10 witness: on the line with one quoted field the parser returns
its two fields and the quoted field carries no quote character. -/
theorem parseCSVLine_total_and_quote_free_witness :
    1 ≤ (parseCSVLine "a,\"b\"").length ∧ ('"' : Char) ∉ ("b" : String).data := by
  constructor
  · exact (parseCSVLine_total_and_quote_free "a,\"b\"").1
  · exact (parseCSVLine_total_and_quote_free "a,\"b\"").2.1 "b" (by decide)

set_option maxRecDepth 40000

/-- C1: the export/import round trip loses every liability, so the claim
fails on the code.  exportData writes liability rows with only three
commas between the category and originalAmount (unlike its own
exportTemplate rows, which carry four), so each exported liability row
tokenizes to 10 fields and parseCSV drops it as shorter than 11 fields:
importing the export of a one-asset one-liability store reproduces the
asset (name, category and dates intact) but reports zero liabilities and
leaves the liability collection empty. -/
theorem roundtrip_loses_liabilities :
    (parseCSV wIdGen "T" emptyStore (exportData c1Store)).2 = ⟨1, 0⟩
    ∧ (parseCSV wIdGen "T" emptyStore (exportData c1Store)).1.liabilities = []
    ∧ (parseCSV wIdGen "T" emptyStore (exportData c1Store)).1.assets.map
        (fun a => (a.name, a.category, a.purchaseDate)) =
          [("Home", "Real Estate", "2020-01-01")]
    ∧ (parseCSVLine ((csvLines (exportData c1Store)).getD 2 "")).length = 10 := by
  refine ⟨by decide, by rfl, by decide, by decide⟩

end NetWorth
